import Mathlib

/-!
Shallow embedding of the MRI-EM-Threshold repository.  The two scripts
`internal_voltage.py` and `i-o_internal_voltage.py` compute, for an
ellipsoidal head model inside an MRI field, the induced voltage, peak
electric field, current density and power density over a linear sweep of
dB/dt, and classify the bioeffect of the peak electric field.

Modelling conventions: Python floats are idealised as exact arithmetic.
Decimal literals and sweep inputs are rationals (`ℚ`), and `math.pi` is
idealised as the real `π`, so the induced-voltage column lives in `ℝ` while
every π-free quantity stays in the decidable domain `ℚ`.  Console printing
is dropped; the print decisions the spec treats as outputs (the bioeffect
classification, the high-field caution) are modelled as functions returning
the chosen label, and the interactive re-prompting loops of
`get_user_input` are modelled over the list of values the user attempts.
-/

/-- `head_a = 0.09` — semi-axis a (lateral), module constant of both scripts. -/
def head_a : ℚ := 0.09

/-- `head_b = 0.09` — semi-axis b (anterior-posterior). -/
def head_b : ℚ := 0.09

/-- `head_c = 0.065` — semi-axis c (superior-inferior). -/
def head_c : ℚ := 0.065

/-- `sigma_brain = 0.33` (S/m), assigned in the loop body of both scripts. -/
def sigma_brain : ℚ := 0.33

/-- `NUM_STEPS = 1000`, the local step count of `run_simulation` in
`i-o_internal_voltage.py`. -/
def NUM_STEPS : ℕ := 1000

/-- `calculate_induced_voltage(dB_dt, a, b, c)` — identical in both scripts:
`A_max = math.pi * a * c; V_induced = abs(dB_dt) * A_max`.  The parameter `b`
is accepted but never read, exactly as in the source. -/
noncomputable def calculate_induced_voltage (dB_dt a b c : ℚ) : ℝ :=
  let A_max : ℝ := Real.pi * (a : ℝ) * (c : ℝ)
  let V_induced : ℝ := |(dB_dt : ℝ)| * A_max
  V_induced

/-- `calculate_max_electric_field(dB_dt, a, c)` — identical in both scripts:
`r_max = max(a, c); E_max = (r_max / 2) * abs(dB_dt)`. -/
def calculate_max_electric_field (dB_dt a c : ℚ) : ℚ :=
  let r_max := max a c
  let E_max := (r_max / 2) * |dB_dt|
  E_max

/-- One row of the results table built by the sweep loop
(`i-o_internal_voltage.py` lines 102–109; `internal_voltage.py` builds the
same row without the `Step` column). -/
structure SampleRecord where
  Step : ℕ
  dB_dt : ℚ
  V_INT : ℝ
  E_max : ℚ
  J_max : ℚ
  power_density : ℚ

/-- The body of the sweep loop at index `i`: `B_ROC = i * dB_dt_increment`,
then the four derived quantities of that iteration, appended as one row. -/
noncomputable def run_simulation_step (dB_dt_increment : ℚ) (i : ℕ) : SampleRecord :=
  let B_ROC : ℚ := i * dB_dt_increment
  let V_INT := calculate_induced_voltage B_ROC head_a head_b head_c
  let E_max := calculate_max_electric_field B_ROC head_a head_c
  let J_max := sigma_brain * E_max
  { Step := i, dB_dt := B_ROC, V_INT := V_INT, E_max := E_max,
    J_max := J_max, power_density := sigma_brain * E_max ^ 2 }

/-- The sweep of `run_simulation`, generalised over the step count (the
spec's `runSweep`): `dB_dt_increment = max_dB_dt / step_count`, then
`for i in range(step_count + 1)` appending one row per iteration. -/
noncomputable def runSweep (max_dB_dt : ℚ) (step_count : ℕ) : List SampleRecord :=
  let dB_dt_increment := max_dB_dt / (step_count : ℚ)
  (List.range (step_count + 1)).map (run_simulation_step dB_dt_increment)

/-- `run_simulation(max_dB_dt, B_max)` of `i-o_internal_voltage.py`,
restricted to the value it returns (the DataFrame rows): `NUM_STEPS = 1000`,
and `B_max` is read only by `print` statements, never by a row. -/
noncomputable def run_simulation (max_dB_dt B_max : ℚ) : List SampleRecord :=
  runSweep max_dB_dt NUM_STEPS

/-- `B_ROC_INCREMENT = 0.05`, module constant of `internal_voltage.py`. -/
def InternalVoltage.B_ROC_INCREMENT : ℚ := 0.05

/-- `NUM_STEPS = 100`, module constant of `internal_voltage.py`. -/
def InternalVoltage.NUM_STEPS : ℕ := 100

/-- The rows built by `main()` of `internal_voltage.py`:
`B_ROC = i * B_ROC_INCREMENT` for `i in range(NUM_STEPS + 1)`. -/
noncomputable def InternalVoltage.main_rows : List SampleRecord :=
  (List.range (InternalVoltage.NUM_STEPS + 1)).map
    (run_simulation_step InternalVoltage.B_ROC_INCREMENT)

/-- The bioeffect labels printed by `run_simulation` (lines 120–127). -/
inductive Bioeffect where
  | subtle
  | tingling
  | painful
  deriving DecidableEq

/-- The branch structure of lines 120–127 of `run_simulation`: which
bioeffect label, if any, is printed for a given `E_max`.  `0.1 <= E_max <= 1`
prints "Subtle Neuromodulation"; inside the `elif 1 < E_max <= 10` branch the
two disjoint guards pick "tingling" or "PAINFUL"; below `0.1` and above `10`
nothing is printed (the spec's "None" / "Unclassified" outcomes). -/
def classify (E_max : ℚ) : Option Bioeffect :=
  if 0.1 ≤ E_max ∧ E_max ≤ 1 then some .subtle
  else if 1 < E_max ∧ E_max ≤ 10 then
    if 1 < E_max ∧ E_max ≤ 5.8 then some .tingling
    else if 5.8 < E_max ∧ E_max ≤ 10 then some .painful
    else none
  else none

/-- After the `for` loop of `run_simulation` the loop variables persist:
`E_max` still holds the value of the final iteration `i = step_count`.  This
is the value that lines 120–127 inspect. -/
def classification_E_input (max_dB_dt : ℚ) (step_count : ℕ) : ℚ :=
  calculate_max_electric_field ((step_count : ℚ) * (max_dB_dt / (step_count : ℚ)))
    head_a head_c

/-- Line 116: `if B_max == 7: print("***Caution! High Field***")`. -/
def high_field_caution (B_max : ℚ) : Bool := B_max == 7

/-- The greatest `Max E-field` entry of a results table (`0` for the empty
table): the quantity the spec calls the table maximum. -/
def table_max_E (rows : List SampleRecord) : ℚ :=
  (rows.map SampleRecord.E_max).foldr max 0

/-- One `while True` prompt loop of `get_user_input`: given the candidate
values the user types, in order, the first one that passes the
`if x <= 0: ... continue` check is returned; `none` if every attempt is
rejected.  (Unparsable text also re-prompts and is omitted from the list.) -/
def first_valid : List ℚ → Option ℚ
  | [] => none
  | x :: rest => if x ≤ 0 then first_valid rest else some x

/-- `get_user_input()` of `i-o_internal_voltage.py`: the `max_dB_dt` prompt
loop followed by the `B_max` prompt loop. -/
def get_user_input (dB_dt_candidates B_max_candidates : List ℚ) : Option (ℚ × ℚ) :=
  (first_valid dB_dt_candidates).bind fun max_dB_dt =>
    (first_valid B_max_candidates).map fun B_max => (max_dB_dt, B_max)

/-- `main()` of `i-o_internal_voltage.py` up to the table it hands to
`save_to_csv`: the sweep runs only on parameters `get_user_input` accepted. -/
noncomputable def main_pipeline (dB_dt_candidates B_max_candidates : List ℚ) :
    Option (List SampleRecord) :=
  (get_user_input dB_dt_candidates B_max_candidates).map
    fun p => run_simulation p.1 p.2

/-! ### Basic facts about the loop body -/

lemma run_simulation_step_dB_dt (inc : ℚ) (i : ℕ) :
    (run_simulation_step inc i).dB_dt = (i : ℚ) * inc := rfl

lemma run_simulation_step_E_max (inc : ℚ) (i : ℕ) :
    (run_simulation_step inc i).E_max
      = (max head_a head_c / 2) * |(i : ℚ) * inc| := rfl

lemma run_simulation_step_J_max (inc : ℚ) (i : ℕ) :
    (run_simulation_step inc i).J_max
      = sigma_brain * (run_simulation_step inc i).E_max := rfl

lemma run_simulation_step_power (inc : ℚ) (i : ℕ) :
    (run_simulation_step inc i).power_density
      = sigma_brain * (run_simulation_step inc i).E_max ^ 2 := rfl

lemma run_simulation_step_V_INT (inc : ℚ) (i : ℕ) :
    (run_simulation_step inc i).V_INT
      = |(((i : ℚ) * inc : ℚ) : ℝ)| * (Real.pi * (head_a : ℝ) * (head_c : ℝ)) := rfl

lemma length_runSweep (m : ℚ) (N : ℕ) : (runSweep m N).length = N + 1 := by
  simp [runSweep]

lemma runSweep_getElem (m : ℚ) (N i : ℕ) (h : i < (runSweep m N).length) :
    (runSweep m N)[i] = run_simulation_step (m / (N : ℚ)) i := by
  simp only [runSweep, List.getElem_map]
  congr 1
  exact List.getElem_range _ _

lemma mem_runSweep (m : ℚ) (N : ℕ) (r : SampleRecord) :
    r ∈ runSweep m N ↔ ∃ i, i ≤ N ∧ r = run_simulation_step (m / (N : ℚ)) i := by
  simp only [runSweep, List.mem_map, List.mem_range]
  constructor
  · rintro ⟨i, hi, rfl⟩
    exact ⟨i, Nat.lt_succ_iff.mp hi, rfl⟩
  · rintro ⟨i, hi, rfl⟩
    exact ⟨i, Nat.lt_succ_iff.mpr hi, rfl⟩


/-! ### Claims about the two formula functions -/

/-- C2: for every `dB_dt` (of either sign) and every geometry `a, b, c > 0`,
`calculate_induced_voltage dB_dt a b c = |dB_dt| * π * a * c`; the result is
always nonnegative and does not depend on `b` (any two values `b1, b2` give
identical results). -/
theorem calculate_induced_voltage_spec (dB_dt a b c : ℚ)
    (ha : 0 < a) (hb : 0 < b) (hc : 0 < c) :
    calculate_induced_voltage dB_dt a b c = |(dB_dt : ℝ)| * Real.pi * (a : ℝ) * (c : ℝ)
    ∧ 0 ≤ calculate_induced_voltage dB_dt a b c
    ∧ ∀ b1 b2 : ℚ, calculate_induced_voltage dB_dt a b1 c
        = calculate_induced_voltage dB_dt a b2 c := by
  refine ⟨?_, ?_, fun b1 b2 => rfl⟩
  · simp only [calculate_induced_voltage]
    ring
  · simp only [calculate_induced_voltage]
    have ha' : (0 : ℝ) ≤ (a : ℝ) := by exact_mod_cast ha.le
    have hc' : (0 : ℝ) ≤ (c : ℝ) := by exact_mod_cast hc.le
    positivity

/-- Witness for C2 at `dB_dt = -2` and the repository's head geometry. -/
theorem calculate_induced_voltage_spec_witness :
    calculate_induced_voltage (-2) head_a head_b head_c
      = |((-2 : ℚ) : ℝ)| * Real.pi * (head_a : ℝ) * (head_c : ℝ)
    ∧ 0 ≤ calculate_induced_voltage (-2) head_a head_b head_c
    ∧ ∀ b1 b2 : ℚ, calculate_induced_voltage (-2) head_a b1 head_c
        = calculate_induced_voltage (-2) head_a b2 head_c :=
  calculate_induced_voltage_spec (-2) head_a head_b head_c
    (by norm_num [head_a]) (by norm_num [head_b]) (by norm_num [head_c])

/-- C3: for every `dB_dt` (of either sign) and every `a, c > 0`,
`calculate_max_electric_field dB_dt a c = (max a c / 2) * |dB_dt|`, and in
particular the field at `dB_dt = 0` is `0`. -/
theorem calculate_max_electric_field_spec (dB_dt a c : ℚ) (ha : 0 < a) (hc : 0 < c) :
    calculate_max_electric_field dB_dt a c = (max a c / 2) * |dB_dt|
    ∧ calculate_max_electric_field 0 a c = 0 :=
  ⟨rfl, by simp [calculate_max_electric_field]⟩

/-- Witness for C3 at `dB_dt = -3`, `a = 0.09`, `c = 0.065`. -/
theorem calculate_max_electric_field_spec_witness :
    calculate_max_electric_field (-3) head_a head_c
      = (max head_a head_c / 2) * |(-3 : ℚ)|
    ∧ calculate_max_electric_field 0 head_a head_c = 0 :=
  calculate_max_electric_field_spec (-3) head_a head_c
    (by norm_num [head_a]) (by norm_num [head_c])

/-- C4: the bioeffect classification of lines 120–127 maps
`E_max ∈ [0.1, 1]` to "Subtle Neuromodulation", `E_max ∈ (1, 5.8]` to
"tingling", `E_max ∈ (5.8, 10]` to "PAINFUL", and prints no label at all
exactly below `0.1` or above `10` (the spec's "None" / "Unclassified"). -/
theorem classify_thresholds (E_max : ℚ) :
    (classify E_max = some .subtle ↔ 0.1 ≤ E_max ∧ E_max ≤ 1)
    ∧ (classify E_max = some .tingling ↔ 1 < E_max ∧ E_max ≤ 5.8)
    ∧ (classify E_max = some .painful ↔ 5.8 < E_max ∧ E_max ≤ 10)
    ∧ (classify E_max = none ↔ E_max < 0.1 ∨ 10 < E_max) := by
  unfold classify
  split_ifs with h1 h2 h3 h4
  · refine ⟨by simp [h1], ?_, ?_, ?_⟩
    · simp only [Option.some.injEq]
      constructor
      · intro h
        cases h
      · rintro ⟨ha, _⟩
        exact absurd h1.2 (by linarith)
    · simp only [Option.some.injEq]
      constructor
      · intro h
        cases h
      · rintro ⟨ha, _⟩
        exact absurd h1.2 (by linarith)
    · constructor
      · intro h
        cases h
      · rintro (h | h) <;> [exact absurd h1.1 (by linarith); exact absurd h1.2 (by linarith)]
  · refine ⟨?_, by simp [h3], ?_, ?_⟩
    · simp only [Option.some.injEq]
      constructor
      · intro h
        cases h
      · rintro ⟨_, hb⟩
        exact absurd h3.1 (by linarith)
    · simp only [Option.some.injEq]
      constructor
      · intro h
        cases h
      · rintro ⟨ha, _⟩
        exact absurd h3.2 (by linarith)
    · constructor
      · intro h
        cases h
      · rintro (h | h) <;> [exact absurd h3.1 (by linarith); exact absurd h2.2 (by linarith)]
  · refine ⟨?_, ?_, by simp [h4], ?_⟩
    · simp only [Option.some.injEq]
      constructor
      · intro h
        cases h
      · rintro ⟨_, hb⟩
        exact absurd h4.1 (by linarith)
    · simp only [Option.some.injEq]
      constructor
      · intro h
        cases h
      · rintro ⟨_, hb⟩
        exact absurd h4.1 (by linarith)
    · constructor
      · intro h
        cases h
      · rintro (h | h) <;> [exact absurd h4.1 (by linarith); exact absurd h4.2 (by linarith)]
  · exfalso
    have h5 : 5.8 < E_max := by
      by_contra hq
      push_neg at hq
      exact h3 ⟨h2.1, hq⟩
    exact h4 ⟨h5, h2.2⟩
  · have hnot1 : ¬(0.1 ≤ E_max ∧ E_max ≤ 1) := h1
    have hnot2 : ¬(1 < E_max ∧ E_max ≤ 10) := h2
    refine ⟨?_, ?_, ?_, ?_⟩
    · constructor
      · intro h
        cases h
      · intro h
        exact absurd h hnot1
    · constructor
      · intro h
        cases h
      · rintro ⟨ha, hb⟩
        exact hnot2 ⟨ha, by linarith⟩
    · constructor
      · intro h
        cases h
      · rintro ⟨ha, hb⟩
        exact hnot2 ⟨by linarith, hb⟩
    · refine ⟨fun _ => ?_, fun _ => rfl⟩
      rcases lt_or_le E_max 0.1 with h | h
      · exact Or.inl h
      · right
        have hE1 : 1 < E_max := by
          by_contra hq
          push_neg at hq
          exact hnot1 ⟨h, hq⟩
        by_contra hq
        push_neg at hq
        exact hnot2 ⟨hE1, hq⟩

/-! ### Claims about the sweep -/

/-- C1: for every `max_dB_dt > 0` and `step_count = N ≥ 1`, the sweep
produces exactly `N + 1` records; record `i` has
`dB_dt = i * (max_dB_dt / N)`, so the `dB_dt` column is an arithmetic
progression running from `0` (step 0) to `max_dB_dt` (step `N`) inclusive,
and it is strictly increasing. -/
theorem runSweep_arithmetic_progression (m : ℚ) (N : ℕ) (hm : 0 < m) (hN : 1 ≤ N) :
    (runSweep m N).length = N + 1
    ∧ (∀ i (h : i < (runSweep m N).length),
        ((runSweep m N)[i]).dB_dt = (i : ℚ) * (m / (N : ℚ)))
    ∧ (∀ h : 0 < (runSweep m N).length, ((runSweep m N)[0]).dB_dt = 0)
    ∧ (∀ h : N < (runSweep m N).length, ((runSweep m N)[N]).dB_dt = m)
    ∧ (∀ i j (hi : i < (runSweep m N).length) (hj : j < (runSweep m N).length),
        i < j → ((runSweep m N)[i]).dB_dt < ((runSweep m N)[j]).dB_dt) := by
  have hN0 : ((N : ℚ)) ≠ 0 := Nat.cast_ne_zero.mpr (by omega)
  have hNpos : (0 : ℚ) < (N : ℚ) := by
    exact_mod_cast Nat.pos_of_ne_zero (by omega)
  have hinc : 0 < m / (N : ℚ) := div_pos hm hNpos
  refine ⟨length_runSweep m N, ?_, ?_, ?_, ?_⟩
  · intro i h
    rw [runSweep_getElem m N i h, run_simulation_step_dB_dt]
  · intro h
    rw [runSweep_getElem m N 0 h, run_simulation_step_dB_dt]
    simp
  · intro h
    rw [runSweep_getElem m N N h, run_simulation_step_dB_dt, mul_comm,
      div_mul_cancel₀ m hN0]
  · intro i j hi hj hij
    rw [runSweep_getElem m N i hi, runSweep_getElem m N j hj,
      run_simulation_step_dB_dt, run_simulation_step_dB_dt]
    exact mul_lt_mul_of_pos_right (by exact_mod_cast hij) hinc

/-- Witness for C1 at `max_dB_dt = 2`, `step_count = 4`. -/
theorem runSweep_arithmetic_progression_witness :
    (runSweep 2 4).length = 4 + 1
    ∧ (∀ i (h : i < (runSweep 2 4).length),
        ((runSweep 2 4)[i]).dB_dt = (i : ℚ) * (2 / ((4 : ℕ) : ℚ)))
    ∧ (∀ h : 0 < (runSweep 2 4).length, ((runSweep 2 4)[0]).dB_dt = 0)
    ∧ (∀ h : 4 < (runSweep 2 4).length, ((runSweep 2 4)[4]).dB_dt = 2)
    ∧ (∀ i j (hi : i < (runSweep 2 4).length) (hj : j < (runSweep 2 4).length),
        i < j → ((runSweep 2 4)[i]).dB_dt < ((runSweep 2 4)[j]).dB_dt) :=
  runSweep_arithmetic_progression 2 4 (by norm_num) (by norm_num)

/-- C6: with the same step count, running the sweep at `2 * max_dB_dt`
doubles the `dB/dt`, `Induced Voltage` and `Max E-field` entries and
quadruples the `Power Density` entry at every step index. -/
theorem runSweep_scaling (m : ℚ) (N i : ℕ) (hm : 0 < m) (hN : 1 ≤ N)
    (hi : i < (runSweep (2 * m) N).length) (hj : i < (runSweep m N).length) :
    ((runSweep (2 * m) N)[i]).dB_dt = 2 * ((runSweep m N)[i]).dB_dt
    ∧ ((runSweep (2 * m) N)[i]).V_INT = 2 * ((runSweep m N)[i]).V_INT
    ∧ ((runSweep (2 * m) N)[i]).E_max = 2 * ((runSweep m N)[i]).E_max
    ∧ ((runSweep (2 * m) N)[i]).power_density
        = 4 * ((runSweep m N)[i]).power_density := by
  rw [runSweep_getElem _ _ _ hi, runSweep_getElem _ _ _ hj]
  have h2 : (i : ℚ) * (2 * m / (N : ℚ)) = 2 * ((i : ℚ) * (m / (N : ℚ))) := by ring
  have hE : (run_simulation_step (2 * m / (N : ℚ)) i).E_max
      = 2 * (run_simulation_step (m / (N : ℚ)) i).E_max := by
    rw [run_simulation_step_E_max, run_simulation_step_E_max, h2, abs_mul, abs_two]
    ring
  refine ⟨?_, ?_, hE, ?_⟩
  · rw [run_simulation_step_dB_dt, run_simulation_step_dB_dt, h2]
  · rw [run_simulation_step_V_INT, run_simulation_step_V_INT, h2]
    push_cast
    rw [abs_mul, abs_two]
    ring
  · rw [run_simulation_step_power, run_simulation_step_power, hE]
    ring

/-- Witness for C6 at `max_dB_dt = 1`, `step_count = 2`, step index `2`. -/
theorem runSweep_scaling_witness :
    ((runSweep (2 * 1) 2).get ⟨2, by rw [length_runSweep]; omega⟩).dB_dt
        = 2 * ((runSweep 1 2).get ⟨2, by rw [length_runSweep]; omega⟩).dB_dt
    ∧ ((runSweep (2 * 1) 2).get ⟨2, by rw [length_runSweep]; omega⟩).V_INT
        = 2 * ((runSweep 1 2).get ⟨2, by rw [length_runSweep]; omega⟩).V_INT
    ∧ ((runSweep (2 * 1) 2).get ⟨2, by rw [length_runSweep]; omega⟩).E_max
        = 2 * ((runSweep 1 2).get ⟨2, by rw [length_runSweep]; omega⟩).E_max
    ∧ ((runSweep (2 * 1) 2).get ⟨2, by rw [length_runSweep]; omega⟩).power_density
        = 4 * ((runSweep 1 2).get ⟨2, by rw [length_runSweep]; omega⟩).power_density :=
  runSweep_scaling 1 2 2 (by norm_num) (by norm_num)
    (by rw [length_runSweep]; omega) (by rw [length_runSweep]; omega)

/-- C8: `B_max` never enters a computed column: for a fixed `max_dB_dt`,
`run_simulation` returns the identical table for any two positive `B_max`
values; the only `B_max`-sensitive console decision is the advisory caution,
which fires exactly at `B_max = 7`. -/
theorem run_simulation_B_max_non_interference (m B1 B2 : ℚ)
    (h1 : 0 < B1) (h2 : 0 < B2) :
    run_simulation m B1 = run_simulation m B2
    ∧ (high_field_caution B1 = true ↔ B1 = 7)
    ∧ (high_field_caution B2 = true ↔ B2 = 7) := by
  refine ⟨rfl, ?_, ?_⟩ <;> simp [high_field_caution]

/-- Witness for C8 at `max_dB_dt = 1`, `B_max` values `7` and `3`. -/
theorem run_simulation_B_max_non_interference_witness :
    run_simulation 1 7 = run_simulation 1 3
    ∧ (high_field_caution 7 = true ↔ (7 : ℚ) = 7)
    ∧ (high_field_caution 3 = true ↔ (3 : ℚ) = 7) :=
  run_simulation_B_max_non_interference 1 7 3 (by norm_num) (by norm_num)

lemma max_head_a_head_c_div_two_nonneg : (0 : ℚ) ≤ max head_a head_c / 2 := by
  norm_num [head_a, head_c]

lemma run_simulation_step_nonneg (inc : ℚ) (i : ℕ) (hinc : 0 ≤ inc) :
    0 ≤ (run_simulation_step inc i).dB_dt
    ∧ 0 ≤ (run_simulation_step inc i).V_INT
    ∧ 0 ≤ (run_simulation_step inc i).E_max
    ∧ 0 ≤ (run_simulation_step inc i).J_max
    ∧ 0 ≤ (run_simulation_step inc i).power_density := by
  have hd : 0 ≤ (i : ℚ) * inc := mul_nonneg (Nat.cast_nonneg i) hinc
  have hE : 0 ≤ (run_simulation_step inc i).E_max := by
    rw [run_simulation_step_E_max]
    exact mul_nonneg max_head_a_head_c_div_two_nonneg (abs_nonneg _)
  refine ⟨hd, ?_, hE, ?_, ?_⟩
  · rw [run_simulation_step_V_INT]
    have hpi : (0 : ℝ) ≤ Real.pi := Real.pi_pos.le
    have ha : (0 : ℝ) ≤ ((head_a : ℚ) : ℝ) := by norm_num [head_a]
    have hc : (0 : ℝ) ≤ ((head_c : ℚ) : ℝ) := by norm_num [head_c]
    exact mul_nonneg (abs_nonneg _) (mul_nonneg (mul_nonneg hpi ha) hc)
  · rw [run_simulation_step_J_max]
    exact mul_nonneg (by norm_num [sigma_brain]) hE
  · rw [run_simulation_step_power]
    exact mul_nonneg (by norm_num [sigma_brain]) (pow_two_nonneg _)

lemma mem_InternalVoltage_main_rows (r : SampleRecord) :
    r ∈ InternalVoltage.main_rows
      ↔ ∃ i, i ≤ InternalVoltage.NUM_STEPS
          ∧ r = run_simulation_step InternalVoltage.B_ROC_INCREMENT i := by
  simp only [InternalVoltage.main_rows, List.mem_map, List.mem_range]
  constructor
  · rintro ⟨i, hi, rfl⟩
    exact ⟨i, Nat.lt_succ_iff.mp hi, rfl⟩
  · rintro ⟨i, hi, rfl⟩
    exact ⟨i, Nat.lt_succ_iff.mpr hi, rfl⟩

/-- C9: for every valid configuration (`max_dB_dt > 0`, `step_count ≥ 1`) and
the fixed positive geometry, every record of the sweep — in either variant —
has nonnegative `Step`, `dB_dt`, `V_INT`, `E_max`, `J_max` and
`power_density`. -/
theorem sweep_records_nonneg (m : ℚ) (N : ℕ) (hm : 0 < m) (hN : 1 ≤ N) :
    (∀ r ∈ runSweep m N, 0 ≤ r.Step ∧ 0 ≤ r.dB_dt ∧ 0 ≤ r.V_INT ∧ 0 ≤ r.E_max
      ∧ 0 ≤ r.J_max ∧ 0 ≤ r.power_density)
    ∧ (∀ r ∈ InternalVoltage.main_rows,
        0 ≤ r.Step ∧ 0 ≤ r.dB_dt ∧ 0 ≤ r.V_INT ∧ 0 ≤ r.E_max
      ∧ 0 ≤ r.J_max ∧ 0 ≤ r.power_density) := by
  have hNpos : (0 : ℚ) < (N : ℚ) := by
    exact_mod_cast Nat.pos_of_ne_zero (by omega)
  constructor
  · intro r hr
    obtain ⟨i, _, rfl⟩ := (mem_runSweep m N r).mp hr
    obtain ⟨h1, h2, h3, h4, h5⟩ :=
      run_simulation_step_nonneg (m / (N : ℚ)) i (div_pos hm hNpos).le
    exact ⟨Nat.zero_le _, h1, h2, h3, h4, h5⟩
  · intro r hr
    obtain ⟨i, _, rfl⟩ := (mem_InternalVoltage_main_rows r).mp hr
    obtain ⟨h1, h2, h3, h4, h5⟩ :=
      run_simulation_step_nonneg InternalVoltage.B_ROC_INCREMENT i
        (by norm_num [InternalVoltage.B_ROC_INCREMENT])
    exact ⟨Nat.zero_le _, h1, h2, h3, h4, h5⟩

/-- Witness for C9 at `max_dB_dt = 3`, `step_count = 2`. -/
theorem sweep_records_nonneg_witness :
    (∀ r ∈ runSweep 3 2, 0 ≤ r.Step ∧ 0 ≤ r.dB_dt ∧ 0 ≤ r.V_INT ∧ 0 ≤ r.E_max
      ∧ 0 ≤ r.J_max ∧ 0 ≤ r.power_density)
    ∧ (∀ r ∈ InternalVoltage.main_rows,
        0 ≤ r.Step ∧ 0 ≤ r.dB_dt ∧ 0 ≤ r.V_INT ∧ 0 ≤ r.E_max
      ∧ 0 ≤ r.J_max ∧ 0 ≤ r.power_density) :=
  sweep_records_nonneg 3 2 (by norm_num) (by norm_num)

/-- C10: in every record produced by either sweep variant, the derived
columns satisfy `Max Current Density = 0.33 * Max E-field` and
`Power Density = Max Current Density * Max E-field`. -/
theorem sweep_cross_column_relations (m : ℚ) (N : ℕ) :
    (∀ r ∈ runSweep m N,
      r.J_max = 0.33 * r.E_max ∧ r.power_density = r.J_max * r.E_max)
    ∧ (∀ r ∈ InternalVoltage.main_rows,
      r.J_max = 0.33 * r.E_max ∧ r.power_density = r.J_max * r.E_max) := by
  have key : ∀ (inc : ℚ) (i : ℕ),
      (run_simulation_step inc i).J_max = 0.33 * (run_simulation_step inc i).E_max
      ∧ (run_simulation_step inc i).power_density
          = (run_simulation_step inc i).J_max * (run_simulation_step inc i).E_max := by
    intro inc i
    constructor
    · rw [run_simulation_step_J_max]
      norm_num [sigma_brain]
    · rw [run_simulation_step_power, run_simulation_step_J_max]
      ring
  constructor
  · intro r hr
    obtain ⟨i, _, rfl⟩ := (mem_runSweep m N r).mp hr
    exact key _ i
  · intro r hr
    obtain ⟨i, _, rfl⟩ := (mem_InternalVoltage_main_rows r).mp hr
    exact key _ i

/-! ### Input validation and the classification input -/

lemma first_valid_pos (cs : List ℚ) (v : ℚ) (h : first_valid cs = some v) : 0 < v := by
  induction cs with
  | nil => simp [first_valid] at h
  | cons x rest ih =>
    rw [first_valid] at h
    split_ifs at h with hx
    · exact ih h
    · injection h with h
      subst h
      push_neg at hx
      exact hx

lemma first_valid_none (cs : List ℚ) (h : ∀ x ∈ cs, x ≤ 0) :
    first_valid cs = none := by
  induction cs with
  | nil => rfl
  | cons x rest ih =>
    rw [first_valid, if_pos (h x (by simp))]
    exact ih fun y hy => h y (by simp [hy])

/-- C5: invalid configurations never reach the sweep.  Each prompt loop of
`get_user_input` rejects every candidate `≤ 0` (re-prompting instead of
computing), so any pair it returns is positive; the fixed step count
`NUM_STEPS = 1000` satisfies `step_count ≥ 1`; and when the user supplies
only invalid values for either parameter the pipeline produces no record at
all — in particular it never partially computes a table. -/
theorem invalid_configuration_rejected (cs bs : List ℚ) :
    (∀ v, first_valid cs = some v → 0 < v)
    ∧ (∀ p, get_user_input cs bs = some p → 0 < p.1 ∧ 0 < p.2)
    ∧ 1 ≤ NUM_STEPS
    ∧ ((∀ x ∈ cs, x ≤ 0) → main_pipeline cs bs = none)
    ∧ ((∀ x ∈ bs, x ≤ 0) → main_pipeline cs bs = none) := by
  refine ⟨fun v h => first_valid_pos cs v h, ?_, by norm_num [NUM_STEPS], ?_, ?_⟩
  · intro p hp
    simp only [get_user_input, Option.bind_eq_some, Option.map_eq_some'] at hp
    obtain ⟨m, hm, B, hB, rfl⟩ := hp
    exact ⟨first_valid_pos cs m hm, first_valid_pos bs B hB⟩
  · intro h
    simp [main_pipeline, get_user_input, first_valid_none cs h]
  · intro h
    simp [main_pipeline, get_user_input, first_valid_none bs h]

lemma le_foldr_max (l : List ℚ) (x : ℚ) (hx : x ∈ l) : x ≤ l.foldr max 0 := by
  induction l with
  | nil => cases hx
  | cons a t ih =>
    rcases List.mem_cons.mp hx with rfl | hmem
    · exact le_max_left _ _
    · exact le_trans (ih hmem) (le_max_right _ _)

lemma foldr_max_le (l : List ℚ) (M : ℚ) (h0 : 0 ≤ M) (hb : ∀ x ∈ l, x ≤ M) :
    l.foldr max 0 ≤ M := by
  induction l with
  | nil => exact h0
  | cons a t ih =>
    exact max_le (hb a (by simp)) (ih fun x hx => hb x (by simp [hx]))

lemma run_simulation_step_E_max_of_nonneg (inc : ℚ) (i : ℕ) (hinc : 0 ≤ inc) :
    (run_simulation_step inc i).E_max
      = (max head_a head_c / 2 * inc) * (i : ℚ) := by
  rw [run_simulation_step_E_max,
    abs_of_nonneg (mul_nonneg (Nat.cast_nonneg i) hinc)]
  ring

/-- C7: the `E_max` that lines 120–127 classify is the final iteration's
value (step index `N`); since the sweep's E-field column is monotonically
non-decreasing from `0` upward, that value is exactly the maximum E-field of
the whole table, so classifying the final step and classifying the table
maximum agree. -/
theorem classification_input_is_table_max (m : ℚ) (N : ℕ) (hm : 0 < m) (hN : 1 ≤ N) :
    (∀ h : N < (runSweep m N).length,
      classification_E_input m N = ((runSweep m N)[N]).E_max)
    ∧ (∀ i j (hi : i < (runSweep m N).length) (hj : j < (runSweep m N).length),
        i ≤ j → ((runSweep m N)[i]).E_max ≤ ((runSweep m N)[j]).E_max)
    ∧ (∀ r ∈ runSweep m N, r.E_max ≤ classification_E_input m N)
    ∧ classification_E_input m N = table_max_E (runSweep m N)
    ∧ classify (classification_E_input m N)
        = classify (table_max_E (runSweep m N)) := by
  have hNpos : (0 : ℚ) < (N : ℚ) := by
    exact_mod_cast Nat.pos_of_ne_zero (by omega)
  have hinc : 0 ≤ m / (N : ℚ) := (div_pos hm hNpos).le
  have hC : 0 ≤ max head_a head_c / 2 * (m / (N : ℚ)) :=
    mul_nonneg max_head_a_head_c_div_two_nonneg hinc
  have hstep : ∀ i : ℕ, (run_simulation_step (m / (N : ℚ)) i).E_max
      = (max head_a head_c / 2 * (m / (N : ℚ))) * (i : ℚ) :=
    fun i => run_simulation_step_E_max_of_nonneg _ i hinc
  have hinput : classification_E_input m N
      = (run_simulation_step (m / (N : ℚ)) N).E_max := rfl
  have hmono : ∀ i j : ℕ, i ≤ j →
      (run_simulation_step (m / (N : ℚ)) i).E_max
        ≤ (run_simulation_step (m / (N : ℚ)) j).E_max := by
    intro i j hij
    rw [hstep i, hstep j]
    exact mul_le_mul_of_nonneg_left (by exact_mod_cast hij) hC
  have hbound : ∀ r ∈ runSweep m N, r.E_max ≤ classification_E_input m N := by
    intro r hr
    obtain ⟨i, hiN, rfl⟩ := (mem_runSweep m N r).mp hr
    rw [hinput]
    exact hmono i N hiN
  have hmem : classification_E_input m N ∈ (runSweep m N).map SampleRecord.E_max := by
    rw [hinput]
    exact List.mem_map_of_mem SampleRecord.E_max
      ((mem_runSweep m N _).mpr ⟨N, le_refl N, rfl⟩)
  have hnonneg : 0 ≤ classification_E_input m N := by
    rw [hinput, hstep N]
    exact mul_nonneg hC (Nat.cast_nonneg N)
  have hmax : classification_E_input m N = table_max_E (runSweep m N) := by
    unfold table_max_E
    refine le_antisymm (le_foldr_max _ _ hmem) (foldr_max_le _ _ hnonneg ?_)
    intro x hx
    obtain ⟨r, hr, rfl⟩ := List.mem_map.mp hx
    exact hbound r hr
  refine ⟨?_, ?_, hbound, hmax, congrArg classify hmax⟩
  · intro h
    rw [runSweep_getElem m N N h]
    exact hinput
  · intro i j hi hj hij
    rw [runSweep_getElem m N i hi, runSweep_getElem m N j hj]
    exact hmono i j hij

/-- Witness for C7 at `max_dB_dt = 4`, `step_count = 2`. -/
theorem classification_input_is_table_max_witness :
    (∀ h : 2 < (runSweep 4 2).length,
      classification_E_input 4 2 = ((runSweep 4 2)[2]).E_max)
    ∧ (∀ i j (hi : i < (runSweep 4 2).length) (hj : j < (runSweep 4 2).length),
        i ≤ j → ((runSweep 4 2)[i]).E_max ≤ ((runSweep 4 2)[j]).E_max)
    ∧ (∀ r ∈ runSweep 4 2, r.E_max ≤ classification_E_input 4 2)
    ∧ classification_E_input 4 2 = table_max_E (runSweep 4 2)
    ∧ classify (classification_E_input 4 2)
        = classify (table_max_E (runSweep 4 2)) :=
  classification_input_is_table_max 4 2 (by norm_num) (by norm_num)
